import Mathlib

/-!
Verification of the WhatsApp bulk-messaging backend (kayaniherbsgit/WhatsAppBulkSystem).

The definitions below are a shallow embedding of the backend server
(`src/unnamed/part_003`, the current revision of `backend/server.js`):
phone normalization (`normalizeTZ`), the contact-set store and its CRUD
handlers, CSV ingestion, the Google-contacts save handler, the broadcast
send loop, and the dashboard connection handler.  Strings of digits are
modelled as `List Char` internally, wrapped into `String` at the API
boundary.  The external send operation (`sock.sendMessage`) is modelled
as an oracle `Nat → Bool` giving the outcome of the i-th attempt.
-/

namespace WABulk

/-! ### Phone normalization (`normalizeTZ`, part_003 lines 93-100) -/

/-- JavaScript `String.prototype.startsWith` on character lists:
`startsWithL p s` is `true` when `p` is a prefix of `s`. -/
def startsWithL : List Char → List Char → Bool
  | [], _ => true
  | _ :: _, [] => false
  | p :: ps, c :: cs => p == c && startsWithL ps cs

/-- `String(raw).replace(/\D/g, '')` — keep only digit characters. -/
def digitsOf (s : List Char) : List Char := s.filter Char.isDigit

/-- `if (n.startsWith('00')) n = n.slice(2);` -/
def codeDrop00 (n : List Char) : List Char :=
  if startsWithL ['0','0'] n then n.drop 2 else n

/-- `if (n.startsWith('0')) n = '255' + n.slice(1);` -/
def codeReplace0 (n : List Char) : List Char :=
  if startsWithL ['0'] n then ['2','5','5'] ++ n.drop 1 else n

/-- `if (!n.startsWith('255') && n.length === 9) n = '255' + n;` -/
def codePrepend255 (n : List Char) : List Char :=
  if ¬ (startsWithL ['2','5','5'] n) ∧ n.length = 9 then ['2','5','5'] ++ n else n

/-- The chain of rewrites `normalizeTZ` applies to a non-empty digit string:
drop a leading `"00"`; replace a leading `"0"` by `"255"`; prepend `"255"`
when the string lacks that prefix and has exactly 9 digits. -/
def normCore (n : List Char) : List Char :=
  codePrepend255 (codeReplace0 (codeDrop00 n))

/-- `normalizeTZ` on character lists: `none` models the JS `null` return
taken when no digits remain after stripping. -/
def normalizeTZL (raw : List Char) : Option (List Char) :=
  let n := digitsOf raw
  if n = [] then none else some (normCore n)

/-- `normalizeTZ` from part_003: normalize a raw phone string to TZ format,
returning `none` (the invalid sentinel) when the input has no digits. -/
def normalizeTZ (raw : String) : Option String :=
  (normalizeTZL raw.data).map String.mk

/-- Applying `normalizeTZ` to a previous result, where the invalid sentinel
maps to itself (in JS, `normalizeTZ(null)` returns `null`). -/
def normalizeAgain : Option String → Option String
  | none => none
  | some s => normalizeTZ s

/-! Spec-side description of the algorithm (§4.2 of the spec), for the
refinement claim C4.  Each step is written from the spec's words, with
"begins with" phrased as equality of an initial segment. -/

/-- Modelled from the spec: "if result begins with the international prefix
written as two leading zeros, drop them". -/
def specDropIntl (n : List Char) : List Char :=
  if n.take 2 = ['0','0'] then n.drop 2 else n

/-- Modelled from the spec: "if it begins with a single leading zero,
replace with the country calling code" (the country calling code is 255). -/
def specReplaceLeadingZero (n : List Char) : List Char :=
  if n.take 1 = ['0'] then ['2','5','5'] ++ n.drop 1 else n

/-- Modelled from the spec: "if the result lacks the country calling code and
its length matches a bare national number (9 digits), prepend the country
calling code". -/
def specPrependCC (n : List Char) : List Char :=
  if ¬ (n.take 3 = ['2','5','5']) ∧ n.length = 9 then ['2','5','5'] ++ n else n

/-- Modelled from the spec (§4.2): strip all non-digit characters, apply the
three rewrite steps in order, and return the invalid sentinel exactly when no
digits remain. -/
def normalizeSpec (raw : String) : Option String :=
  let d := digitsOf raw.data
  if d = [] then none
  else some (String.mk (specPrependCC (specReplaceLeadingZero (specDropIntl d))))

/-! ### String primitives shared by the handlers -/

/-- `String.prototype.trim`: strip leading and trailing whitespace. -/
def trimL (s : List Char) : List Char :=
  ((s.dropWhile Char.isWhitespace).reverse.dropWhile Char.isWhitespace).reverse

/-- `trim` on strings. -/
def trimS (s : String) : String := String.mk (trimL s.data)

/-- `String.prototype.toLowerCase` (ASCII). -/
def lowerS (s : String) : String := String.mk (s.data.map Char.toLower)

/-- `String.prototype.split(',')`. -/
def splitComma : List Char → List (List Char)
  | [] => [[]]
  | c :: rest =>
    let r := splitComma rest
    if c = ',' then [] :: r else (c :: r.headD []) :: r.tail

/-- `Array.prototype.join(',')`. -/
def joinComma : List (List Char) → List Char
  | [] => []
  | [x] => x
  | x :: xs => x ++ ',' :: joinComma xs

/-! ### Data model: contacts, sets, and the persisted store -/

/-- One contact subdocument (`{ name, phone }` in the mongoose schema). -/
structure Contact where
  name : String
  phone : String
deriving DecidableEq

/-- One `ContactSet` document: a unique name and an ordered contact list. -/
structure ContactSet where
  name : String
  contacts : List Contact
deriving DecidableEq

/-- The contact-set collection, ordered. -/
abbrev DB := List ContactSet

/-- `ContactSet.findOne({ name })`. -/
def findSet (db : DB) (name : String) : Option ContactSet :=
  db.find? (fun s => s.name == name)

/-- `set.save()`: replace the document originally found under `key`, or append
a newly created one. -/
def upsert (db : DB) (key : String) (s : ContactSet) : DB :=
  if (findSet db key).isSome then db.map (fun t => if t.name == key then s else t)
  else db ++ [s]

/-- JS truthiness of a `normalizeTZ` result: both `null` and the empty string
are falsy, so `if (!normalized)` rejects exactly these. -/
def normTruthy : Option String → Option String
  | none => none
  | some s => if s = "" then none else some s

/-! ### `POST /contacts/:setName/add` (part_003 lines 313-333) -/

inductive AddResp
  | invalidPhone
  | conflict
  | ok (contact : Contact) (count : Nat)
deriving DecidableEq

/-- HTTP status code of an add-contact response. -/
def AddResp.status : AddResp → Nat
  | .invalidPhone => 400
  | .conflict => 409
  | .ok _ _ => 200

def addContactHandler (db : DB) (setName phone name : String) : AddResp × DB :=
  match normTruthy (normalizeTZ phone) with
  | none => (.invalidPhone, db)
  | some normalized =>
    let set := (findSet db setName).getD ⟨setName, []⟩
    if set.contacts.any (fun c => c.phone == normalized) then (.conflict, db)
    else
      let set' := { set with contacts := set.contacts ++ [⟨name, normalized⟩] }
      (.ok ⟨name, normalized⟩ set'.contacts.length, upsert db setName set')

/-! ### `PATCH /contacts/:setName/rename` (part_003 lines 387-407) -/

inductive RenameResp
  | badRequest
  | conflict
  | notFound
  | ok (name : String)
deriving DecidableEq

/-- HTTP status code of a rename response. -/
def RenameResp.status : RenameResp → Nat
  | .badRequest => 400
  | .conflict => 409
  | .notFound => 404
  | .ok _ => 200

def renameHandler (db : DB) (setName newName : String) : RenameResp × DB :=
  if trimS newName = "" then (.badRequest, db)
  else
    match findSet db (trimS newName) with
    | some _ => (.conflict, db)
    | none =>
      match findSet db setName with
      | none => (.notFound, db)
      | some set =>
        (.ok (trimS newName), upsert db setName { set with name := trimS newName })

/-! ### `POST /contacts/google/save` (part_003 lines 493-517) -/

/-- The JSON body the handler sends back:
`{ message: 'Saved', count, contacts }`. -/
structure GoogleSaveResp where
  message : String
  count : Nat
  contacts : List Contact
deriving DecidableEq

inductive GoogleSaveResult
  | invalidInput
  | ok (resp : GoogleSaveResp)
deriving DecidableEq

/-- One pass of the save loop: normalize, skip a falsy or duplicate result,
otherwise push `{ phone: normalized }` (the schema defaults `name` to `''`). -/
def googleSaveStep (acc : List Contact) (phone : String) : List Contact :=
  match normTruthy (normalizeTZ phone) with
  | none => acc
  | some normalized =>
    if acc.any (fun c => c.phone == normalized) then acc
    else acc ++ [⟨"", normalized⟩]

def googleSaveHandler (db : DB) (setName : String) (numbers : List String) :
    GoogleSaveResult × DB :=
  if setName = "" then (.invalidInput, db)
  else
    let set := (findSet db setName).getD ⟨setName, []⟩
    let finalContacts := numbers.foldl googleSaveStep set.contacts
    (.ok ⟨"Saved", finalContacts.length, finalContacts⟩,
     upsert db setName { set with contacts := finalContacts })

/-! ### CSV ingestion, `POST /upload/:setName` (part_003 lines 131-274)

A parsed CSV data row is an ordered association list from header to cell
value, as produced by the csv-parser library (which itself is external). -/

abbrev Row := List (String × String)

/-- `(h || '').replace(/﻿/g, '').trim()` — strip BOM characters, trim. -/
def cleanHeader (h : String) : String :=
  trimS (String.mk (h.data.filter (fun c => c ≠ Char.ofNat 65279)))

/-- `getDigits`: digits of a cell value. -/
def getDigits (v : String) : List Char := digitsOf v.data

/-- `looksLikePhone`: at least 7 digits. -/
def looksLikePhone (v : String) : Bool := 7 ≤ (getDigits v).length

/-- Substring containment on character lists. -/
def hasInfix (pat : List Char) : List Char → Bool
  | [] => startsWithL pat []
  | c :: rest => startsWithL pat (c :: rest) || hasInfix pat rest

/-- `/^phone(s)?$/i.test(k) || /phone/i.test(k)` — the first pattern is
subsumed by the second, so this is a case-insensitive substring test. -/
def isPhoneHeader (k : String) : Bool := hasInfix "phone".data (lowerS k).data

/-- `/^name(s)?$/i.test(k)`. -/
def isNameHeader (k : String) : Bool := lowerS k == "name" || lowerS k == "names"

/-- The header keys sniffed once from the first data row. -/
structure SniffState where
  phoneKey : Option String
  nameKey : Option String

/-- `state.keys[state.nkeys.findIndex(...)] ?? null` for both columns. -/
def computeState (row : Row) : SniffState :=
  let pairs := (row.map Prod.fst).map (fun k => (k, cleanHeader k))
  { phoneKey := (pairs.find? (fun p => isPhoneHeader p.2)).map Prod.fst,
    nameKey := (pairs.find? (fun p => isNameHeader p.2)).map Prod.fst }

/-- `row[k]` for an association-list row. -/
def rowGet (row : Row) (k : String) : Option String :=
  (row.find? (fun p => p.1 == k)).map Prod.snd

/-- The fallback name scan: first non-phone-like, non-blank value, trimmed. -/
def nameScan (row : Row) : String :=
  (((row.map Prod.snd).find? (fun v => ¬ looksLikePhone v ∧ trimS v ≠ "")).map
    trimS).getD ""

/-- `extractFromRow`: steps 1-4 of the smart parser, then normalization.
Unset intermediate values are modelled as `""`, which is what JS falsiness
tests (`!rawPhone`, `!rawName`) distinguish. -/
def extractFromRow (st : SniffState) (row : Row) : Option Contact :=
  let rawPhone1 : String :=
    match st.phoneKey with
    | some k => (rowGet row k).getD ""
    | none => ""
  let rawPhone2 : String :=
    if rawPhone1 ≠ "" then rawPhone1
    else ((row.map Prod.snd).find? looksLikePhone).getD ""
  let step3 : String × String :=
    if rawPhone2 ≠ "" then (rawPhone2, "")
    else
      match (row.map Prod.snd).filter (fun v => trimS v ≠ "") with
      | [v] =>
        let parts := splitComma v.data
        if 2 ≤ parts.length then
          let candidate := String.mk (parts.getLastD [])
          if looksLikePhone candidate then
            (candidate, String.mk (trimL (joinComma parts.dropLast)))
          else ("", "")
        else ("", "")
      | _ => ("", "")
  let rawName : String :=
    match st.nameKey with
    | some k =>
      match rowGet row k with
      | some v => trimS v
      | none => if step3.2 ≠ "" then step3.2 else nameScan row
    | none => if step3.2 ≠ "" then step3.2 else nameScan row
  match normTruthy (normalizeTZ step3.1) with
  | none => none
  | some normalized => some ⟨rawName, normalized⟩

inductive UploadResp
  | noValidRows
  | noNewNumbers
  | ok (added : Nat) (count : Nat)
deriving DecidableEq

/-- HTTP status code of an upload response. -/
def UploadResp.status : UploadResp → Nat
  | .noValidRows => 400
  | .noNewNumbers => 400
  | .ok _ _ => 200

/-- Accumulator of the save-with-dedupe loop: the growing contact array, the
`existingPhones` set (as a list), and the `added` counter. -/
structure DedupeAcc where
  contacts : List Contact
  phones : List String
  added : Nat
deriving DecidableEq

/-- One iteration of `for (const c of newContacts)`. -/
def dedupeStep (acc : DedupeAcc) (c : Contact) : DedupeAcc :=
  if acc.phones.contains c.phone then acc
  else ⟨acc.contacts ++ [⟨c.name, c.phone⟩], acc.phones ++ [c.phone], acc.added + 1⟩

/-- The sniff state is computed once, on the first data row. -/
def sniffOf (rows : List Row) : SniffState :=
  match rows with
  | [] => ⟨none, none⟩
  | r :: _ => computeState r

def uploadHandler (db : DB) (setName : String) (rows : List Row) : UploadResp × DB :=
  let st := sniffOf rows
  let newContacts := rows.filterMap (extractFromRow st)
  if newContacts = [] then (.noValidRows, db)
  else
    let isNew := (findSet db setName).isNone
    let set := (findSet db setName).getD ⟨setName, []⟩
    let acc := newContacts.foldl dedupeStep ⟨set.contacts, set.contacts.map (·.phone), 0⟩
    if acc.added = 0 ∧ isNew then (.noNewNumbers, db)
    else
      (.ok acc.added acc.contacts.length, upsert db setName { set with contacts := acc.contacts })

/-! ### Broadcast loop and `POST /send/:setName` (part_003 lines 521-573) -/

structure Progress where
  total : Nat
  sent : Nat
  failed : Nat
deriving DecidableEq

/-- One record of `history.json`. -/
structure HistoryRecord where
  date : String
  setName : String
  message : String
  total : Nat
  sent : Nat
  failed : Nat
deriving DecidableEq

/-- Mutable loop state: the progress counters, the log buffer, and (for
specification purposes) the sequence of JIDs handed to `sock.sendMessage`. -/
structure LoopState where
  progress : Progress
  logs : List String
  attempts : List String
deriving DecidableEq

def mkJid (number : String) : String := number ++ "@s.whatsapp.net"

def sentLog (number : String) : String := "✅ Sent to " ++ number

def failLog (number : String) : String := "❌ Failed to send to " ++ number

/-- One iteration of the send loop: attempt the send (outcome `ok`), increment
exactly one counter, append exactly one log line. -/
def broadcastStep (ok : Bool) (number : String) (st : LoopState) : LoopState :=
  if ok then
    { progress := { st.progress with sent := st.progress.sent + 1 },
      logs := st.logs ++ [sentLog number],
      attempts := st.attempts ++ [mkJid number] }
  else
    { progress := { st.progress with failed := st.progress.failed + 1 },
      logs := st.logs ++ [failLog number],
      attempts := st.attempts ++ [mkJid number] }

/-- `for (const number of contacts) { ... }`, with `i` the index of the next
attempt fed to the send oracle. -/
def loopGo (oracle : Nat → Bool) : List String → Nat → LoopState → LoopState
  | [], _, st => st
  | n :: rest, i, st => loopGo oracle rest (i + 1) (broadcastStep (oracle i) n st)

/-- The whole loop, started from the reset state
`sendingProgress = { total: contacts.length, sent: 0, failed: 0 }` and
`sendingLogs = []`. -/
def runLoop (oracle : Nat → Bool) (numbers : List String) : LoopState :=
  loopGo oracle numbers 0 ⟨⟨numbers.length, 0, 0⟩, [], []⟩

/-- The process-wide server state touched by the send endpoint and the
dashboard channel. -/
structure ServerState where
  sets : DB
  sockExists : Bool
  connectionStatus : String
  latestQR : Option String
  sendingProgress : Progress
  sendingLogs : List String
  history : List HistoryRecord
deriving DecidableEq

inductive SendResp
  | errMessageRequired
  | errSetNotFound
  | errNotConnected
  | ok (stats : Progress)
deriving DecidableEq

/-- HTTP status code of a send response. -/
def SendResp.status : SendResp → Nat
  | .errMessageRequired => 400
  | .errSetNotFound => 404
  | .errNotConnected => 400
  | .ok _ => 200

/-- The `POST /send/:setName` handler.  `oracle i` is the outcome of the i-th
`sock.sendMessage` call; `now` is the formatted timestamp. -/
def sendHandler (oracle : Nat → Bool) (now : String) (st : ServerState)
    (setName message : String) : SendResp × ServerState :=
  if trimS message = "" then (.errMessageRequired, st)
  else
    match findSet st.sets setName with
    | none => (.errSetNotFound, st)
    | some set =>
      if ¬ (st.sockExists ∧ st.connectionStatus = "connected") then
        (.errNotConnected, st)
      else
        let res := runLoop oracle (set.contacts.map (·.phone))
        let run : HistoryRecord :=
          ⟨now, setName, message, res.progress.total, res.progress.sent, res.progress.failed⟩
        (.ok res.progress,
         { st with sendingProgress := res.progress,
                   sendingLogs := res.logs,
                   history := run :: st.history })

/-! ### Dashboard channel, `io.on('connection')` (part_003 lines 623-628) -/

inductive DashEvent
  | status (s : String)
  | qr (q : Option String)
  | progress (p : Progress)
  | logs (l : List String)
deriving DecidableEq

inductive DashKind
  | status
  | qr
  | progress
  | logs
deriving DecidableEq

def DashEvent.kind : DashEvent → DashKind
  | .status _ => .status
  | .qr _ => .qr
  | .progress _ => .progress
  | .logs _ => .logs

/-- The events emitted to a newly connected socket, in order. -/
def onConnection (st : ServerState) : List DashEvent :=
  [.status st.connectionStatus, .qr st.latestQR,
   .progress st.sendingProgress, .logs st.sendingLogs]

/-! ### Concrete fixtures used by example-level claims and witnesses -/

/-- A three-contact set, snapshot order A, B, C. -/
def fixSet3 : ContactSet :=
  ⟨"team", [⟨"A","255700000001"⟩, ⟨"B","255700000002"⟩, ⟨"C","255700000003"⟩]⟩

/-- Server state with a connected session and an empty history. -/
def fixState3 : ServerState :=
  { sets := [fixSet3], sockExists := true, connectionStatus := "connected",
    latestQR := none, sendingProgress := ⟨0,0,0⟩, sendingLogs := [], history := [] }

/-- Send outcome: success for the 1st and 3rd attempt, an exception on the 2nd. -/
def fixOracle3 : Nat → Bool := fun i => i ≠ 1

/-- A disconnected variant of `fixState3`. -/
def fixState3Disc : ServerState := { fixState3 with connectionStatus := "disconnected" }

/-- CSV data row `["John","0712345678"]` under sniffed headers `a`, `b`. -/
def csvRowJohn : Row := [("a","John"), ("b","0712345678")]

/-- CSV data row `["0712345678"]`, a duplicate phone. -/
def csvRowDup : Row := [("a","0712345678")]

/-- Number of contacts `POST /contacts/google/save` newly stores: the growth
of the target set across the call. -/
def googleAdded (db : DB) (setName : String) (numbers : List String) : Nat :=
  ((findSet (googleSaveHandler db setName numbers).2 setName).getD ⟨setName, []⟩).contacts.length
    - ((findSet db setName).getD ⟨setName, []⟩).contacts.length

/-- Store whose set `S` holds one contact. -/
def gsDb1 : DB := [⟨"S", [⟨"","255700000001"⟩]⟩]

/-- Store whose set `S` holds two contacts, the second already being the
normalized form of `"0712345678"`. -/
def gsDb2 : DB := [⟨"S", [⟨"","255700000001"⟩, ⟨"","255712345678"⟩]⟩]

/-! ## Theorems

### Bridge lemmas for normalization -/

theorem startsWithL_iff_take (p : List Char) :
    ∀ n : List Char, startsWithL p n = true ↔ n.take p.length = p := by
  induction p with
  | nil => intro n; simp [startsWithL]
  | cons x xs ih =>
    intro n
    cases n with
    | nil => simp [startsWithL]
    | cons c cs =>
      simp [startsWithL, ih, List.take, eq_comm (a := c) (b := x), and_comm]

theorem codeDrop00_eq_spec (d : List Char) : codeDrop00 d = specDropIntl d := by
  unfold codeDrop00 specDropIntl
  by_cases h : d.take 2 = ['0','0']
  · simp [(startsWithL_iff_take ['0','0'] d).mpr h, h]
  · have h' : ¬ startsWithL ['0','0'] d = true :=
      fun hh => h ((startsWithL_iff_take ['0','0'] d).mp hh)
    simp [h, h']

theorem codeReplace0_eq_spec (d : List Char) : codeReplace0 d = specReplaceLeadingZero d := by
  unfold codeReplace0 specReplaceLeadingZero
  by_cases h : d.take 1 = ['0']
  · simp [(startsWithL_iff_take ['0'] d).mpr h, h]
  · have h' : ¬ startsWithL ['0'] d = true :=
      fun hh => h ((startsWithL_iff_take ['0'] d).mp hh)
    simp [h, h']

theorem codePrepend255_eq_spec (d : List Char) : codePrepend255 d = specPrependCC d := by
  unfold codePrepend255 specPrependCC
  by_cases h : d.take 3 = ['2','5','5']
  · simp [(startsWithL_iff_take ['2','5','5'] d).mpr h, h]
  · have h' : ¬ startsWithL ['2','5','5'] d = true :=
      fun hh => h ((startsWithL_iff_take ['2','5','5'] d).mp hh)
    simp [h, h']

theorem normCore_eq_spec (d : List Char) :
    normCore d = specPrependCC (specReplaceLeadingZero (specDropIntl d)) := by
  unfold normCore
  rw [codeDrop00_eq_spec, codeReplace0_eq_spec, codePrepend255_eq_spec]

theorem normalizeTZ_eq_spec (raw : String) : normalizeTZ raw = normalizeSpec raw := by
  unfold normalizeTZ normalizeSpec normalizeTZL
  by_cases h : digitsOf raw.data = [] <;> simp [h, normCore_eq_spec]

/-! Facts feeding the idempotence analysis of `normalizeTZ`. -/

theorem startsWithL0_of_00 {n : List Char} (h : startsWithL ['0','0'] n = true) :
    startsWithL ['0'] n = true := by
  cases n with
  | nil => simp [startsWithL] at h
  | cons c cs => simp [startsWithL] at h ⊢; exact h.1

theorem codeDrop00_digits {d : List Char} (h : ∀ c ∈ d, Char.isDigit c) :
    ∀ c ∈ codeDrop00 d, Char.isDigit c := by
  unfold codeDrop00
  split
  · exact fun c hc => h c (List.drop_subset 2 d hc)
  · exact h

theorem codeReplace0_digits {d : List Char} (h : ∀ c ∈ d, Char.isDigit c) :
    ∀ c ∈ codeReplace0 d, Char.isDigit c := by
  unfold codeReplace0
  split
  · intro c hc
    rcases List.mem_append.mp hc with hc | hc
    · fin_cases hc <;> decide
    · exact h c (List.drop_subset 1 d hc)
  · exact h

theorem codePrepend255_digits {d : List Char} (h : ∀ c ∈ d, Char.isDigit c) :
    ∀ c ∈ codePrepend255 d, Char.isDigit c := by
  unfold codePrepend255
  split
  · intro c hc
    rcases List.mem_append.mp hc with hc | hc
    · fin_cases hc <;> decide
    · exact h c hc
  · exact h

theorem normCore_digits {d : List Char} (h : ∀ c ∈ d, Char.isDigit c) :
    ∀ c ∈ normCore d, Char.isDigit c :=
  codePrepend255_digits (codeReplace0_digits (codeDrop00_digits h))

theorem codeDrop00_ne_nil {d : List Char} (hne : d ≠ []) (h00 : d ≠ ['0','0']) :
    codeDrop00 d ≠ [] := by
  unfold codeDrop00
  split
  · next h =>
    cases d with
    | nil => simp [startsWithL] at h
    | cons c cs =>
      cases cs with
      | nil => simp [startsWithL] at h
      | cons c' cs' =>
        simp only [startsWithL, Bool.and_eq_true, beq_iff_eq] at h
        intro hdrop
        simp only [List.drop_succ_cons, List.drop_zero] at hdrop
        subst hdrop
        exact h00 (by rw [← h.1, ← h.2.1])
  · exact hne

theorem codeReplace0_ne_nil {d : List Char} (hne : d ≠ []) : codeReplace0 d ≠ [] := by
  unfold codeReplace0
  split
  · simp
  · exact hne

theorem codePrepend255_ne_nil {d : List Char} (hne : d ≠ []) : codePrepend255 d ≠ [] := by
  unfold codePrepend255
  split
  · simp
  · exact hne

theorem normCore_ne_nil {d : List Char} (hne : d ≠ []) (h00 : d ≠ ['0','0']) :
    normCore d ≠ [] :=
  codePrepend255_ne_nil (codeReplace0_ne_nil (codeDrop00_ne_nil hne h00))

theorem codeReplace0_not_starts0 (d : List Char) :
    startsWithL ['0'] (codeReplace0 d) = false := by
  unfold codeReplace0
  split
  · simp [startsWithL]
  · next h => simpa using h

theorem codePrepend255_not_starts0 {d : List Char}
    (h : startsWithL ['0'] d = false) :
    startsWithL ['0'] (codePrepend255 d) = false := by
  unfold codePrepend255
  split
  · simp [startsWithL]
  · exact h

theorem normCore_not_starts0 (d : List Char) :
    startsWithL ['0'] (normCore d) = false :=
  codePrepend255_not_starts0 (codeReplace0_not_starts0 (codeDrop00 d))

theorem codePrepend255_guard (d : List Char) :
    (codePrepend255 d).length = 9 → startsWithL ['2','5','5'] (codePrepend255 d) = true := by
  unfold codePrepend255
  split
  · intro _; simp [startsWithL]
  · next h =>
    intro hlen
    rcases not_and_or.mp h with h' | h'
    · simpa using h'
    · exact absurd hlen h'

theorem normCore_guard (d : List Char) :
    (normCore d).length = 9 → startsWithL ['2','5','5'] (normCore d) = true :=
  codePrepend255_guard (codeReplace0 (codeDrop00 d))

/-- A string that does not begin with `'0'` and satisfies the 9-digit guard is
a fixed point of the rewrite chain. -/
theorem normCore_fixed {o : List Char}
    (h0 : startsWithL ['0'] o = false)
    (h9 : o.length = 9 → startsWithL ['2','5','5'] o = true) :
    normCore o = o := by
  have h00 : startsWithL ['0','0'] o = false := by
    cases hsw : startsWithL ['0','0'] o
    · rfl
    · rw [startsWithL0_of_00 hsw] at h0; exact absurd h0 (by simp)
  unfold normCore codeDrop00
  rw [if_neg (by simp [h00])]
  unfold codeReplace0
  rw [if_neg (by simp [h0])]
  unfold codePrepend255
  rw [if_neg (by intro hcond; exact hcond.1 (h9 hcond.2))]

/-- Every output of `normalizeTZ`, except the empty string produced from a
digit content of exactly `"00"`, is a fixed point of another application. -/
theorem normalizeAgain_eq (x : String) (h : digitsOf x.data ≠ ['0','0']) :
    normalizeAgain (normalizeTZ x) = normalizeTZ x := by
  unfold normalizeTZ normalizeTZL
  by_cases hd : digitsOf x.data = []
  · simp [hd, normalizeAgain]
  · simp only [hd, if_false, Option.map_some']
    set d := digitsOf x.data with hdd
    set o := normCore d with ho
    have hdig : ∀ c ∈ d, Char.isDigit c := by
      intro c hc
      rw [hdd] at hc
      exact (List.mem_filter.mp hc).2
    have hodig : ∀ c ∈ o, Char.isDigit c := normCore_digits hdig
    have hone : o ≠ [] := normCore_ne_nil hd h
    have hfilter : digitsOf o = o := List.filter_eq_self.mpr hodig
    show Option.map String.mk
        (if digitsOf o = [] then none else some (normCore (digitsOf o))) = some (String.mk o)
    rw [hfilter, if_neg hone,
      normCore_fixed (normCore_not_starts0 d) (normCore_guard d), Option.map_some']

/-! ### Helper lemmas about the broadcast loop -/

theorem broadcastStep_sent (ok : Bool) (number : String) (st : LoopState) :
    (broadcastStep ok number st).progress.sent
      = st.progress.sent + (if ok then 1 else 0) := by
  unfold broadcastStep; split <;> simp

theorem broadcastStep_failed (ok : Bool) (number : String) (st : LoopState) :
    (broadcastStep ok number st).progress.failed
      = st.progress.failed + (if ok then 0 else 1) := by
  unfold broadcastStep; split <;> simp

theorem broadcastStep_total (ok : Bool) (number : String) (st : LoopState) :
    (broadcastStep ok number st).progress.total = st.progress.total := by
  unfold broadcastStep; split <;> simp

theorem broadcastStep_logs (ok : Bool) (number : String) (st : LoopState) :
    (broadcastStep ok number st).logs
      = st.logs ++ [if ok then sentLog number else failLog number] := by
  unfold broadcastStep; split <;> simp_all

theorem broadcastStep_attempts (ok : Bool) (number : String) (st : LoopState) :
    (broadcastStep ok number st).attempts = st.attempts ++ [mkJid number] := by
  unfold broadcastStep; split <;> simp

theorem loopGo_attempts (oracle : Nat → Bool) :
    ∀ (ns : List String) (i : Nat) (st : LoopState),
      (loopGo oracle ns i st).attempts = st.attempts ++ ns.map mkJid := by
  intro ns
  induction ns with
  | nil => intro i st; simp [loopGo]
  | cons n rest ih =>
    intro i st
    rw [loopGo, ih, broadcastStep_attempts]
    simp

theorem loopGo_total (oracle : Nat → Bool) :
    ∀ (ns : List String) (i : Nat) (st : LoopState),
      (loopGo oracle ns i st).progress.total = st.progress.total := by
  intro ns
  induction ns with
  | nil => intro i st; simp [loopGo]
  | cons n rest ih =>
    intro i st
    rw [loopGo, ih, broadcastStep_total]

theorem loopGo_sent (oracle : Nat → Bool) :
    ∀ (ns : List String) (i : Nat) (st : LoopState),
      (loopGo oracle ns i st).progress.sent
        = st.progress.sent + (List.range' i ns.length).countP oracle := by
  intro ns
  induction ns with
  | nil => intro i st; simp [loopGo]
  | cons n rest ih =>
    intro i st
    rw [loopGo, ih, broadcastStep_sent]
    show _ = st.progress.sent + (List.range' i (rest.length + 1)).countP oracle
    rw [List.range'_succ, List.countP_cons]
    by_cases h : oracle i <;> simp [h] <;> omega

theorem loopGo_failed (oracle : Nat → Bool) :
    ∀ (ns : List String) (i : Nat) (st : LoopState),
      (loopGo oracle ns i st).progress.failed
        = st.progress.failed + (List.range' i ns.length).countP (fun j => ! oracle j) := by
  intro ns
  induction ns with
  | nil => intro i st; simp [loopGo]
  | cons n rest ih =>
    intro i st
    rw [loopGo, ih, broadcastStep_failed]
    show _ = st.progress.failed + (List.range' i (rest.length + 1)).countP (fun j => ! oracle j)
    rw [List.range'_succ, List.countP_cons]
    by_cases h : oracle i <;> simp [h] <;> omega

theorem loopGo_logs_len (oracle : Nat → Bool) :
    ∀ (ns : List String) (i : Nat) (st : LoopState),
      (loopGo oracle ns i st).logs.length = st.logs.length + ns.length := by
  intro ns
  induction ns with
  | nil => intro i st; simp [loopGo]
  | cons n rest ih =>
    intro i st
    rw [loopGo, ih, broadcastStep_logs]
    simp
    omega

/-- Summary of a full run started from the reset state. -/
theorem runLoop_spec (oracle : Nat → Bool) (ns : List String) :
    (runLoop oracle ns).attempts = ns.map mkJid ∧
    (runLoop oracle ns).progress.total = ns.length ∧
    (runLoop oracle ns).progress.sent = (List.range ns.length).countP oracle ∧
    (runLoop oracle ns).progress.failed
      = (List.range ns.length).countP (fun j => ! oracle j) ∧
    (runLoop oracle ns).logs.length = ns.length := by
  unfold runLoop
  refine ⟨?_, ?_, ?_, ?_, ?_⟩
  · rw [loopGo_attempts]; simp
  · rw [loopGo_total]
  · rw [loopGo_sent, List.range_eq_range']; simp
  · rw [loopGo_failed, List.range_eq_range']; simp
  · rw [loopGo_logs_len]; simp

/-- The two counters of a completed run always account for every contact. -/
theorem runLoop_complete (oracle : Nat → Bool) (ns : List String) :
    (runLoop oracle ns).progress.sent + (runLoop oracle ns).progress.failed
      = (runLoop oracle ns).progress.total := by
  obtain ⟨-, ht, hs, hf, -⟩ := runLoop_spec oracle ns
  rw [ht, hs, hf]
  have := List.length_eq_countP_add_countP (l := List.range ns.length) (p := oracle)
  simpa using this.symm

/-- Counters and log length of a loop started on any contact list from reset
counters `{ total, sent: 0, failed: 0 }` and an empty log buffer. -/
theorem partialLoop_counts (oracle : Nat → Bool) (total : Nat) (ms : List String) :
    (loopGo oracle ms 0 ⟨⟨total, 0, 0⟩, [], []⟩).progress.sent
        + (loopGo oracle ms 0 ⟨⟨total, 0, 0⟩, [], []⟩).progress.failed = ms.length ∧
    (loopGo oracle ms 0 ⟨⟨total, 0, 0⟩, [], []⟩).logs.length = ms.length ∧
    (loopGo oracle ms 0 ⟨⟨total, 0, 0⟩, [], []⟩).progress.total = total := by
  refine ⟨?_, ?_, ?_⟩
  · rw [loopGo_sent, loopGo_failed]
    have := List.length_eq_countP_add_countP (l := List.range' 0 ms.length) (p := oracle)
    simp only [List.length_range'] at this
    simpa using this.symm
  · rw [loopGo_logs_len]; simp
  · rw [loopGo_total]

/-! ### The claims -/

/-- C1: A broadcast over a snapshot of 3 contacts whose underlying send
succeeds for the 1st and 3rd contact and throws for the 2nd returns stats
`{total: 3, sent: 2, failed: 1}`, and the single `BroadcastRun` record
prepended to the history log carries those same counters.  In general, every
contact of the snapshot is attempted exactly once, in stored order, with no
retry; the counters classify the attempts, so a failure only increments the
failed counter and never aborts the loop. -/
theorem broadcast_three_contacts_stats :
    (sendHandler fixOracle3 "2024-01-01 00:00:00" fixState3 "team" "hello").1
      = SendResp.ok ⟨3, 2, 1⟩ ∧
    (sendHandler fixOracle3 "2024-01-01 00:00:00" fixState3 "team" "hello").2.history
      = [⟨"2024-01-01 00:00:00", "team", "hello", 3, 2, 1⟩] ∧
    (∀ (oracle : Nat → Bool) (ns : List String),
      (runLoop oracle ns).attempts = ns.map mkJid ∧
      (runLoop oracle ns).progress.total = ns.length ∧
      (runLoop oracle ns).progress.sent = (List.range ns.length).countP oracle ∧
      (runLoop oracle ns).progress.failed
        = (List.range ns.length).countP (fun j => ! oracle j)) := by
  refine ⟨by decide, by decide, ?_⟩
  intro oracle ns
  obtain ⟨ha, ht, hs, hf, -⟩ := runLoop_spec oracle ns
  exact ⟨ha, ht, hs, hf⟩

/-- C2: the send endpoint rejects without side effects: a blank message gives
InvalidInput (400); a missing set under a non-blank message gives NotFound
(404); an existing set with a non-blank message while the session is not
connected gives Unavailable (400).  In each case the whole server state —
progress counters, logs, history — is returned unchanged. -/
theorem send_rejections_leave_state_unchanged
    (oracle : Nat → Bool) (now : String) (st : ServerState) (setName message : String) :
    (trimS message = "" →
      sendHandler oracle now st setName message = (.errMessageRequired, st) ∧
      SendResp.status .errMessageRequired = 400) ∧
    (trimS message ≠ "" → findSet st.sets setName = none →
      sendHandler oracle now st setName message = (.errSetNotFound, st) ∧
      SendResp.status .errSetNotFound = 404) ∧
    (∀ set, trimS message ≠ "" → findSet st.sets setName = some set →
      st.connectionStatus ≠ "connected" →
      sendHandler oracle now st setName message = (.errNotConnected, st) ∧
      SendResp.status .errNotConnected = 400) := by
  refine ⟨?_, ?_, ?_⟩
  · intro h
    refine ⟨?_, rfl⟩
    unfold sendHandler
    rw [if_pos h]
  · intro h hf
    refine ⟨?_, rfl⟩
    simp only [sendHandler, if_neg h, hf]
  · intro set h hf hcon
    have hcond : ¬ (st.sockExists ∧ st.connectionStatus = "connected") :=
      fun hc => hcon hc.2
    refine ⟨?_, rfl⟩
    simp only [sendHandler, if_neg h, hf, if_pos hcond]

theorem send_rejections_witness :
    sendHandler fixOracle3 "now" fixState3 "team" "   " = (.errMessageRequired, fixState3) ∧
    sendHandler fixOracle3 "now" fixState3 "nosuch" "hello" = (.errSetNotFound, fixState3) ∧
    sendHandler fixOracle3 "now" fixState3Disc "team" "hello"
      = (.errNotConnected, fixState3Disc) :=
  ⟨((send_rejections_leave_state_unchanged fixOracle3 "now" fixState3 "team" "   ").1
      (by decide)).1,
   ((send_rejections_leave_state_unchanged fixOracle3 "now" fixState3 "nosuch" "hello").2.1
      (by decide) (by decide)).1,
   ((send_rejections_leave_state_unchanged fixOracle3 "now" fixState3Disc "team" "hello").2.2
      fixSet3 (by decide) (by decide) (by decide)).1⟩

/-- C3 counterexample: normalization is not idempotent on every input.  The
input `"00"` has digit content exactly `"00"`: the first application drops the
two zeros and returns the empty string — the empty-digit check happens before
the slice, so the empty string escapes the invalid sentinel — and the second
application maps the empty string to the sentinel. -/
theorem normalize_not_idempotent_on_00 :
    ¬ (normalizeAgain (normalizeTZ "00") = normalizeTZ "00") := by decide

/-- C3 (amended): normalization is idempotent on every input string whose
digit content is not exactly `"00"`, and applying it to the invalid sentinel
again yields the invalid sentinel. -/
theorem normalize_idempotent_amended (x : String) (h : digitsOf x.data ≠ ['0','0']) :
    normalizeAgain (normalizeTZ x) = normalizeTZ x ∧ normalizeAgain none = none :=
  ⟨normalizeAgain_eq x h, rfl⟩

theorem normalize_idempotent_amended_witness :
    normalizeAgain (normalizeTZ "0712345678") = normalizeTZ "0712345678" ∧
    normalizeAgain none = none :=
  normalize_idempotent_amended "0712345678" (by decide)

/-- C4: `normalizeTZ` follows the spec's pure algorithm — strip non-digits,
drop a leading `"00"`, replace a single leading `"0"` with `"255"`, prepend
`"255"` to a bare 9-digit number, and return the invalid sentinel exactly
when no digits remain — and satisfies the four normalization examples. -/
theorem normalize_follows_spec_algorithm :
    (∀ s : String, normalizeTZ s = normalizeSpec s) ∧
    normalizeTZ "0712345678" = some "255712345678" ∧
    normalizeTZ "00255712345678" = some "255712345678" ∧
    normalizeTZ "712345678" = some "255712345678" ∧
    normalizeTZ "" = none :=
  ⟨normalizeTZ_eq_spec, by decide, by decide, by decide, rfl⟩

/-- C9: on a new dashboard connection the channel emits exactly four events,
one of each kind — status, pairing payload, progress, logs — each carrying the
current value of the corresponding state, with no duplicates and no replay. -/
theorem dashboard_initial_snapshot (st : ServerState) :
    (onConnection st).length = 4 ∧
    (onConnection st).filter (fun e => e.kind == DashKind.status)
      = [.status st.connectionStatus] ∧
    (onConnection st).filter (fun e => e.kind == DashKind.qr) = [.qr st.latestQR] ∧
    (onConnection st).filter (fun e => e.kind == DashKind.progress)
      = [.progress st.sendingProgress] ∧
    (onConnection st).filter (fun e => e.kind == DashKind.logs)
      = [.logs st.sendingLogs] := ⟨rfl, rfl, rfl, rfl, rfl⟩

/-- C10: each iteration of the send loop increments exactly one of the two
counters and appends exactly one log line while leaving `total` unchanged;
starting from the reset state, after any number of iterations
`sent + failed ≤ total` and the log length equals `sent + failed`; and on
completion `sent + failed = total`. -/
theorem send_loop_invariant (oracle : Nat → Bool) (ns : List String) :
    (∀ (ok : Bool) (n : String) (st : LoopState),
      (broadcastStep ok n st).progress.sent + (broadcastStep ok n st).progress.failed
        = st.progress.sent + st.progress.failed + 1 ∧
      (broadcastStep ok n st).logs.length = st.logs.length + 1 ∧
      (broadcastStep ok n st).progress.total = st.progress.total) ∧
    (∀ k,
      (loopGo oracle (ns.take k) 0 ⟨⟨ns.length, 0, 0⟩, [], []⟩).progress.sent
          + (loopGo oracle (ns.take k) 0 ⟨⟨ns.length, 0, 0⟩, [], []⟩).progress.failed
        ≤ (loopGo oracle (ns.take k) 0 ⟨⟨ns.length, 0, 0⟩, [], []⟩).progress.total ∧
      (loopGo oracle (ns.take k) 0 ⟨⟨ns.length, 0, 0⟩, [], []⟩).logs.length
        = (loopGo oracle (ns.take k) 0 ⟨⟨ns.length, 0, 0⟩, [], []⟩).progress.sent
          + (loopGo oracle (ns.take k) 0 ⟨⟨ns.length, 0, 0⟩, [], []⟩).progress.failed) ∧
    ((runLoop oracle ns).progress.sent + (runLoop oracle ns).progress.failed
        = (runLoop oracle ns).progress.total ∧
      (runLoop oracle ns).logs.length = (runLoop oracle ns).progress.total) := by
  refine ⟨?_, ?_, ?_, ?_⟩
  · intro ok n st
    refine ⟨?_, ?_, broadcastStep_total ok n st⟩
    · rw [broadcastStep_sent, broadcastStep_failed]
      by_cases h : ok <;> simp [h] <;> omega
    · rw [broadcastStep_logs]; simp
  · intro k
    obtain ⟨hsf, hlen, ht⟩ := partialLoop_counts oracle ns.length (ns.take k)
    constructor
    · rw [hsf, ht, List.length_take]
      omega
    · rw [hlen, hsf]
  · exact runLoop_complete oracle ns
  · obtain ⟨-, ht, -, -, hl⟩ := runLoop_spec oracle ns
    rw [hl, ht]

/-! ### Fold invariants of the two save-with-dedupe loops -/

theorem dedupe_fold_invariant :
    ∀ (newC : List Contact) (acc : DedupeAcc),
      acc.phones = acc.contacts.map Contact.phone →
      acc.phones.Nodup →
      ((newC.foldl dedupeStep acc).phones
          = (newC.foldl dedupeStep acc).contacts.map Contact.phone ∧
       (newC.foldl dedupeStep acc).phones.Nodup ∧
       (∀ p, p ∈ (newC.foldl dedupeStep acc).phones ↔
          p ∈ acc.phones ∨ p ∈ newC.map Contact.phone) ∧
       (newC.foldl dedupeStep acc).contacts.length + acc.added
          = acc.contacts.length + (newC.foldl dedupeStep acc).added) := by
  intro newC
  induction newC with
  | nil =>
    intro acc h1 h2
    refine ⟨h1, h2, ?_, rfl⟩
    intro p
    simp
  | cons c rest ih =>
    intro acc h1 h2
    rw [List.foldl_cons]
    by_cases hmem : acc.phones.contains c.phone = true
    · have hstep : dedupeStep acc c = acc := by
        unfold dedupeStep
        rw [if_pos hmem]
      rw [hstep]
      obtain ⟨g1, g2, g3, g4⟩ := ih acc h1 h2
      refine ⟨g1, g2, ?_, g4⟩
      intro p
      rw [g3, List.map_cons, List.mem_cons]
      have hc : c.phone ∈ acc.phones := by simpa using hmem
      constructor
      · rintro (h | h)
        · exact Or.inl h
        · exact Or.inr (Or.inr h)
      · rintro (h | h | h)
        · exact Or.inl h
        · exact Or.inl (by rw [h]; exact hc)
        · exact Or.inr h
    · have hstep : dedupeStep acc c
          = ⟨acc.contacts ++ [⟨c.name, c.phone⟩], acc.phones ++ [c.phone], acc.added + 1⟩ := by
        unfold dedupeStep
        rw [if_neg hmem]
      rw [hstep]
      have hnotmem : c.phone ∉ acc.phones := by simpa using hmem
      have h1' : acc.phones ++ [c.phone]
          = (acc.contacts ++ [(⟨c.name, c.phone⟩ : Contact)]).map Contact.phone := by
        simp [List.map_append, h1]
      have h2' : (acc.phones ++ [c.phone]).Nodup := by
        simp [List.nodup_append, h2, hnotmem]
      obtain ⟨g1, g2, g3, g4⟩ :=
        ih ⟨acc.contacts ++ [⟨c.name, c.phone⟩], acc.phones ++ [c.phone], acc.added + 1⟩ h1' h2'
      refine ⟨g1, g2, ?_, ?_⟩
      · intro p
        rw [g3]
        simp only [List.mem_append, List.mem_singleton, List.map_cons, List.mem_cons]
        tauto
      · simp only [List.length_append, List.length_singleton] at g4 ⊢
        omega

theorem google_fold_mem :
    ∀ (numbers : List String) (acc : List Contact) (c : Contact),
      c ∈ numbers.foldl googleSaveStep acc →
      c ∈ acc ∨ ∃ n ∈ numbers, normTruthy (normalizeTZ n) = some c.phone := by
  intro numbers
  induction numbers with
  | nil => intro acc c h; exact Or.inl h
  | cons n rest ih =>
    intro acc c h
    rw [List.foldl_cons] at h
    rcases ih (googleSaveStep acc n) c h with h' | ⟨m, hm, hmn⟩
    · rcases hn : normTruthy (normalizeTZ n) with _ | p
      · have hstep : googleSaveStep acc n = acc := by
          unfold googleSaveStep
          rw [hn]
        rw [hstep] at h'
        exact Or.inl h'
      · have hstep : googleSaveStep acc n
            = if acc.any (fun x => x.phone == p) then acc else acc ++ [⟨"", p⟩] := by
          unfold googleSaveStep
          rw [hn]
        rw [hstep] at h'
        by_cases hdup : acc.any (fun x => x.phone == p) = true
        · rw [if_pos hdup] at h'
          exact Or.inl h'
        · rw [if_neg hdup] at h'
          rcases List.mem_append.mp h' with h'' | h''
          · exact Or.inl h''
          · refine Or.inr ⟨n, List.mem_cons_self n rest, ?_⟩
            have hc : c = ⟨"", p⟩ := List.mem_singleton.mp h''
            rw [hc, hn]
    · exact Or.inr ⟨m, List.mem_cons_of_mem n hm, hmn⟩

theorem google_fold_nodup :
    ∀ (numbers : List String) (acc : List Contact),
      (acc.map Contact.phone).Nodup →
      ((numbers.foldl googleSaveStep acc).map Contact.phone).Nodup := by
  intro numbers
  induction numbers with
  | nil => intro acc h; exact h
  | cons n rest ih =>
    intro acc h
    rw [List.foldl_cons]
    apply ih
    rcases hn : normTruthy (normalizeTZ n) with _ | p
    · have hstep : googleSaveStep acc n = acc := by
        unfold googleSaveStep
        rw [hn]
      rw [hstep]
      exact h
    · have hstep : googleSaveStep acc n
          = if acc.any (fun x => x.phone == p) then acc else acc ++ [⟨"", p⟩] := by
        unfold googleSaveStep
        rw [hn]
      rw [hstep]
      by_cases hdup : acc.any (fun x => x.phone == p) = true
      · rw [if_pos hdup]
        exact h
      · rw [if_neg hdup]
        have hpnot : p ∉ acc.map Contact.phone := by
          intro hp
          obtain ⟨x, hx, hxp⟩ := List.mem_map.mp hp
          exact hdup (List.any_eq_true.mpr ⟨x, hx, by simp [hxp]⟩)
        simp [List.map_append, List.nodup_append, h, hpnot]


/-- C5: CSV ingestion drops every row whose candidate phone normalizes to
invalid, silently, without reporting an error for that row; it deduplicates
surviving rows against phones earlier in the same batch and against the
target set's stored phones before persisting; it fails with NoValidRows
(HTTP 400) when zero rows survive normalization; and ingesting rows
`["John","0712345678"]` and `["0712345678"]` into an empty store yields
exactly one stored contact with phone `"255712345678"`. -/
theorem csv_ingestion_dedupe_and_novalid (db : DB) (setName : String)
    (rows : List Row) (sniff : SniffState) :
    uploadHandler [] "mySet" [csvRowJohn, csvRowDup]
      = (.ok 1 1, [⟨"mySet", [⟨"John", "255712345678"⟩]⟩]) ∧
    ((∀ r ∈ rows, extractFromRow (sniffOf rows) r = none) →
      uploadHandler db setName rows = (.noValidRows, db) ∧
      UploadResp.status .noValidRows = 400) ∧
    (∀ (r : Row) (rs : List Row), extractFromRow sniff r = none →
      (r :: rs).filterMap (extractFromRow sniff) = rs.filterMap (extractFromRow sniff)) ∧
    (∀ (newC : List Contact) (c0 : List Contact),
      (c0.map Contact.phone).Nodup →
      ((newC.foldl dedupeStep ⟨c0, c0.map Contact.phone, 0⟩).contacts.map Contact.phone).Nodup ∧
      (∀ p, p ∈ (newC.foldl dedupeStep ⟨c0, c0.map Contact.phone, 0⟩).contacts.map Contact.phone
        ↔ p ∈ c0.map Contact.phone ∨ p ∈ newC.map Contact.phone) ∧
      (newC.foldl dedupeStep ⟨c0, c0.map Contact.phone, 0⟩).contacts.length
        = c0.length + (newC.foldl dedupeStep ⟨c0, c0.map Contact.phone, 0⟩).added) := by
  refine ⟨by decide, ?_, ?_, ?_⟩
  · intro hall
    refine ⟨?_, rfl⟩
    have hnil : rows.filterMap (extractFromRow (sniffOf rows)) = [] :=
      List.filterMap_eq_nil.mpr hall
    simp only [uploadHandler]
    rw [hnil]
    simp
  · intro r rs hr
    exact List.filterMap_cons_none hr
  · intro newC c0 hnodup
    obtain ⟨g1, g2, g3, g4⟩ :=
      dedupe_fold_invariant newC ⟨c0, c0.map Contact.phone, 0⟩ rfl hnodup
    rw [← g1]
    refine ⟨g2, g3, ?_⟩
    have g4' := g4
    simp only at g4'
    omega

/-- Witness for C5: an all-invalid upload is rejected with NoValidRows and the
store is untouched; an invalid row contributes nothing; a batch with an
in-batch duplicate grows an empty set by exactly `added` contacts. -/
theorem csv_ingestion_witness :
    uploadHandler [⟨"e", []⟩] "e" [[("a","xx")]] = (.noValidRows, [⟨"e", []⟩]) ∧
    ([[("a","xx")], [("a","0712345678")]] : List Row).filterMap (extractFromRow ⟨none, none⟩)
      = ([[("a","0712345678")]] : List Row).filterMap (extractFromRow ⟨none, none⟩) ∧
    (([⟨"N","255700000001"⟩, ⟨"M","255700000001"⟩] : List Contact).foldl dedupeStep
        ⟨[], [], 0⟩).contacts.length
      = 0 + (([⟨"N","255700000001"⟩, ⟨"M","255700000001"⟩] : List Contact).foldl dedupeStep
        ⟨[], [], 0⟩).added :=
  ⟨((csv_ingestion_dedupe_and_novalid [⟨"e", []⟩] "e" [[("a","xx")]] ⟨none, none⟩).2.1
      (by decide)).1,
   (csv_ingestion_dedupe_and_novalid [⟨"e", []⟩] "e" [[("a","xx")]] ⟨none, none⟩).2.2.1
      [("a","xx")] [[("a","0712345678")]] (by decide),
   by
     have h := ((csv_ingestion_dedupe_and_novalid [⟨"e", []⟩] "e" [[("a","xx")]]
        ⟨none, none⟩).2.2.2 [⟨"N","255700000001"⟩, ⟨"M","255700000001"⟩] [] (by decide)).2.2
     simpa using h⟩

/-- C6: adding a contact whose normalized phone equals the normalized phone of
a contact already in the set fails with Conflict (HTTP 409) and leaves the
stored set — its whole contact sequence — exactly as it was. -/
theorem add_duplicate_phone_conflict (db : DB) (setName phone name : String)
    (set : ContactSet)
    (hset : findSet db setName = some set)
    (hstored : ∀ c ∈ set.contacts, normalizeTZ c.phone = some c.phone)
    (hdup : ∃ c ∈ set.contacts, normalizeTZ phone = normalizeTZ c.phone) :
    addContactHandler db setName phone name = (.conflict, db) ∧
    AddResp.status .conflict = 409 := by
  obtain ⟨c, hc, heq⟩ := hdup
  have hcn : normalizeTZ c.phone = some c.phone := hstored c hc
  have hne : c.phone ≠ "" := by
    intro h0
    rw [h0] at hcn
    exact absurd hcn (by decide)
  have htr : normTruthy (normalizeTZ phone) = some c.phone := by
    rw [heq, hcn]
    show (if c.phone = "" then none else some c.phone) = some c.phone
    rw [if_neg hne]
  have hany : set.contacts.any (fun x => x.phone == c.phone) = true :=
    List.any_eq_true.mpr ⟨c, hc, by simp⟩
  refine ⟨?_, rfl⟩
  simp only [addContactHandler, htr, hset, Option.getD_some, hany, if_true]

/-- Witness for C6: re-adding `"0712345678"` to a set already holding
`"255712345678"` is rejected with Conflict and the store is unchanged. -/
theorem add_duplicate_phone_conflict_witness :
    addContactHandler [⟨"s1", [⟨"X","255712345678"⟩]⟩] "s1" "0712345678" "Y"
      = (.conflict, [⟨"s1", [⟨"X","255712345678"⟩]⟩]) :=
  (add_duplicate_phone_conflict [⟨"s1", [⟨"X","255712345678"⟩]⟩] "s1" "0712345678" "Y"
    ⟨"s1", [⟨"X","255712345678"⟩]⟩ (by decide) (by decide) (by decide)).1

/-- C7: renaming an existing set to the name of another existing set fails
with Conflict (HTTP 409); afterwards both sets are still found under their
original names with their contacts untouched, the whole store unchanged. -/
theorem rename_to_existing_conflict (db : DB) (a b : ContactSet)
    (ha : findSet db a.name = some a)
    (hb : findSet db b.name = some b)
    (htrim : trimS b.name = b.name)
    (hne : b.name ≠ "") :
    renameHandler db a.name b.name = (.conflict, db) ∧
    RenameResp.status .conflict = 409 ∧
    findSet (renameHandler db a.name b.name).2 a.name = some a ∧
    findSet (renameHandler db a.name b.name).2 b.name = some b := by
  have h1 : ¬ trimS b.name = "" := by rw [htrim]; exact hne
  have hmain : renameHandler db a.name b.name = (.conflict, db) := by
    unfold renameHandler
    rw [if_neg h1, htrim, hb]
  refine ⟨hmain, rfl, ?_, ?_⟩
  · rw [hmain]; exact ha
  · rw [hmain]; exact hb

/-- Witness for C7: renaming set `A` to the existing name `B` is rejected with
Conflict and the store keeps both sets unchanged. -/
theorem rename_to_existing_conflict_witness :
    renameHandler [⟨"A", []⟩, ⟨"B", [⟨"n","255700000001"⟩]⟩] "A" "B"
      = (.conflict, [⟨"A", []⟩, ⟨"B", [⟨"n","255700000001"⟩]⟩]) :=
  (rename_to_existing_conflict [⟨"A", []⟩, ⟨"B", [⟨"n","255700000001"⟩]⟩]
    ⟨"A", []⟩ ⟨"B", [⟨"n","255700000001"⟩]⟩ (by decide) (by decide) (by decide) (by decide)).1

/-- C8 counterexample: the save response carries no `added` field.  Two stores
that differ in how many contacts the call newly stores (1 versus 0) receive
identical responses, so no component of the response reports the number of
newly stored contacts. -/
theorem google_save_lacks_added_field :
    (googleSaveHandler gsDb1 "S" ["0712345678"]).1
      = (googleSaveHandler gsDb2 "S" ["0712345678"]).1 ∧
    googleAdded gsDb1 "S" ["0712345678"] = 1 ∧
    googleAdded gsDb2 "S" ["0712345678"] = 0 := by decide

/-- C8 (amended): the directory-contacts save passes every supplied phone
through normalization, skips entries that fail to normalize or duplicate a
phone already present, and returns `{ message: 'Saved', count, contacts }`
where `count` is the set's total size — but no `added` field. -/
theorem google_save_amended (db : DB) (setName : String) (numbers : List String)
    (hname : setName ≠ "") :
    googleSaveHandler db setName numbers
      = (.ok ⟨"Saved",
            (numbers.foldl googleSaveStep
              ((findSet db setName).getD ⟨setName, []⟩).contacts).length,
            numbers.foldl googleSaveStep
              ((findSet db setName).getD ⟨setName, []⟩).contacts⟩,
         upsert db setName
           { (findSet db setName).getD ⟨setName, []⟩ with
             contacts := numbers.foldl googleSaveStep
               ((findSet db setName).getD ⟨setName, []⟩).contacts }) ∧
    (∀ c ∈ numbers.foldl googleSaveStep ((findSet db setName).getD ⟨setName, []⟩).contacts,
      c ∈ ((findSet db setName).getD ⟨setName, []⟩).contacts ∨
      ∃ n ∈ numbers, normTruthy (normalizeTZ n) = some c.phone) ∧
    ((((findSet db setName).getD ⟨setName, []⟩).contacts.map Contact.phone).Nodup →
      ((numbers.foldl googleSaveStep
          ((findSet db setName).getD ⟨setName, []⟩).contacts).map Contact.phone).Nodup) := by
  refine ⟨?_, ?_, ?_⟩
  · unfold googleSaveHandler
    rw [if_neg hname]
  · exact fun c hc => google_fold_mem numbers _ c hc
  · exact fun h => google_fold_nodup numbers _ h

/-- Witness for C8 (amended): saving one fresh number into a one-contact set
produces the Saved response with count 2 and the two-contact list. -/
theorem google_save_amended_witness :
    googleSaveHandler gsDb1 "S" ["255700000002"]
      = (.ok ⟨"Saved", 2, [⟨"","255700000001"⟩, ⟨"","255700000002"⟩]⟩,
         [⟨"S", [⟨"","255700000001"⟩, ⟨"","255700000002"⟩]⟩]) :=
  ((google_save_amended gsDb1 "S" ["255700000002"] (by decide)).1).trans (by decide)

end WABulk
